import Mathlib

/-!
Shallow embedding of the `check-es-aggregation` Nagios plugin
(repository Showmax/nagios-plugins-elasticsearch).

The repository contains several near-duplicate variants of the same
program.  The main subject is the full-featured variant in
`src/unnamed/part_000`, which itself holds two programs:

* variant A (lines 1-433): the older `check-es-aggregation` with a single
  boolean query, a naive `fields` splitter, and an `AddRangeFilter` whose
  switch tests `>` before `>=`;
* variant B (lines 434-1014): the current program with a scored query
  (`qry`) and an unscored filter conjunction (`flt`), the regex-based
  `Fields` parser, and the corrected `AddRangeFilter` order.

`src/cmd/check_es_aggregation/main.go` is a simpler legacy variant whose
final threshold classification checks the warning range first and returns
early.

Numeric values (Go `float64`) are embedded as `ℚ`; `int64`/`int` as `ℤ`.
Pointer-valued statistics in the Elasticsearch client are embedded as
present values: the `ok` flag of each lookup (the only absence condition
the program tests) is modelled by `Option`.  Go run-time panics (index out
of range on a slice) are modelled by `Except String`.
-/

namespace ESAgg

/-! ## Character and list helpers (embedding Go string primitives) -/

/-- Character class of the `Fields` regex field group: `[a-zA-Z0-9_.-]`
(`src/unnamed/part_000` line 777). -/
def isFieldChar (c : Char) : Bool :=
  c.isAlpha || c.isDigit || c = '_' || c = '.' || c = '-'

/-- Go regexp `\s` class (RE2): space, tab, newline, form feed, carriage
return. -/
def isSpaceGo (c : Char) : Bool :=
  c = ' ' || c = '\t' || c = '\n' || c = '\x0c' || c = '\r'

/-- Fuel-driven worker for `splitOnL`. -/
def splitOnGo (pat : List Char) : Nat → List Char → List Char → List (List Char)
  | 0, _, acc => [acc.reverse]
  | _ + 1, [], acc => [acc.reverse]
  | f + 1, c :: rest, acc =>
    if pat.isPrefixOf (c :: rest) then
      acc.reverse :: splitOnGo pat f ((c :: rest).drop pat.length) []
    else
      splitOnGo pat f rest (c :: acc)

/-- Embedding of Go `strings.Split` on character lists (for a non-empty
separator). -/
def splitOnL (pat l : List Char) : List (List Char) :=
  splitOnGo pat (l.length + 1) l []

/-- Embedding of Go `strings.Contains` on character lists. -/
def containsL (pat : List Char) : List Char → Bool
  | [] => pat.isPrefixOf ([] : List Char)
  | c :: rest => pat.isPrefixOf (c :: rest) || containsL pat rest

/-- Embedding of Go `strings.HasPrefix`. -/
def strStartsWith (s pat : String) : Bool :=
  pat.data.isPrefixOf s.data

/-- Drop the first `n` characters of a string (used to embed
`strings.TrimPrefix` once the prefix is known to be present). -/
def strDrop (s : String) (n : Nat) : String :=
  String.mk (s.data.drop n)

/-! ## Decimal formatting and parsing -/

/-- Integer `⌊10 ^ prec * q + 1 / 2⌋` for `q ≥ 0`, computed from the
numerator and denominator so that the kernel can evaluate it. -/
def roundedScaled (prec : Nat) (q : ℚ) : ℤ :=
  (2 * (10 : ℤ) ^ prec * q.num + (q.den : ℤ)) / (2 * (q.den : ℤ))

/-- Left-pad a digit string with zeros to width `w`. -/
def padZeros (w : Nat) (s : String) : String :=
  String.mk (List.replicate (w - s.length) '0') ++ s

/-- Fixed-point decimal rendering with `prec` digits after the point.
Embeds Go `strconv.FormatFloat(f, 'f', prec, 64)` (and `fmt` `%f` for
`prec = 6`) on the rational embedding of `float64`; it agrees with Go on
every value exactly representable at that precision (the program only
formats such values in the claims under study). -/
def formatFloatPrec (prec : Nat) (q : ℚ) : String :=
  let n := roundedScaled prec q
  let m := (10 : Nat) ^ prec
  (if n < 0 then "-" else "") ++
    toString (n.natAbs / m) ++ "." ++ padZeros prec (toString (n.natAbs % m))

/-- Embedding of Go `strconv.FormatFloat(pctFloat, 'f', 1, 64)`
(`src/unnamed/part_000` lines 632 and 636). -/
def formatFloat1 : ℚ → String := formatFloatPrec 1

/-- The `%f` verb of `fmt` (six digits after the point), used in the final
check messages. -/
def formatFloat6 : ℚ → String := formatFloatPrec 6

/-- Decimal digit value of a character, if it is a digit. -/
def digitVal (c : Char) : Option Nat :=
  if c.isDigit then some (c.toNat - 48) else none

/-- Accumulating worker for `parseNatL`. -/
def parseNatGo : List Char → Option Nat → Option Nat
  | [], acc => acc
  | c :: rest, acc =>
    parseNatGo rest (acc.bind fun a => (digitVal c).map fun d => 10 * a + d)

/-- Parse a non-empty all-digit character list. -/
def parseNatL (l : List Char) : Option Nat :=
  if l = [] then none else parseNatGo l (some 0)

/-- Parse an optionally signed decimal literal into a rational. -/
def parseQL (l : List Char) : Option ℚ :=
  let signed : Bool × List Char :=
    match l with
    | '-' :: r => (true, r)
    | _ => (false, l)
  match splitOnL ['.'] signed.2 with
  | [ip] =>
    (parseNatL ip).map fun n =>
      mkRat (if signed.1 then -(n : ℤ) else (n : ℤ)) 1
  | [ip, fp] =>
    match parseNatL ip, parseNatL fp with
    | some i, some f =>
      let m := (10 : Nat) ^ fp.length
      let n : ℤ := (i : ℤ) * (m : ℤ) + (f : ℤ)
      some (mkRat (if signed.1 then -n else n) m)
    | _, _ => none
  | _ => none

/-! ## Severity and the monitoring-range collaborator -/

/-- Check severities of the monitoring convention (exit codes 0-3). -/
inductive Severity where
  | ok
  | warning
  | critical
  | unknown
deriving DecidableEq

/-- Numeric value of a severity (the monitoring exit-code convention,
spec §6). -/
def sevVal : Severity → Nat
  | .ok => 0
  | .warning => 1
  | .critical => 2
  | .unknown => 3

/-- Worst severity of a list of added check results (the
`nagiosplugin.Check.Finish` rule: the highest-valued result wins). -/
def worstSeverity (l : List Severity) : Severity :=
  l.foldl (fun a b => if sevVal a < sevVal b then b else a) .ok

/-- Modelled from the spec: the threshold range of the external
`nagiosplugin` library (not under `src/`), spec §6 — bounds with an
inversion flag, `none` meaning unbounded. -/
structure RangeSpec where
  invert : Bool
  lo : Option ℚ
  hi : Option ℚ
deriving DecidableEq

/-- Modelled from the spec: `nagiosplugin.ParseRange` (external library,
spec §6 range specifier grammar): optional leading `@` inverts; forms
`n` (0..n), `n:` (n..∞), `~:n` (-∞..n), `n:m` (n..m). -/
def parseRange (s : String) : Option RangeSpec :=
  let signed : Bool × List Char :=
    match s.data with
    | '@' :: r => (true, r)
    | l => (false, l)
  match splitOnL [':'] signed.2 with
  | [n] => (parseQL n).map fun q => ⟨signed.1, some 0, some q⟩
  | [a, b] =>
    let lo? : Option (Option ℚ) :=
      if a = ['~'] then some none else (parseQL a).map some
    let hi? : Option (Option ℚ) :=
      if b = [] then some none else (parseQL b).map some
    match lo?, hi? with
    | some lo, some hi => some ⟨signed.1, lo, hi⟩
    | _, _ => none
  | _ => none

/-- Whether a scalar lies inside the bounds of a range. -/
def insideRange (r : RangeSpec) (v : ℚ) : Bool :=
  (match r.lo with
   | none => true
   | some l => decide (l ≤ v)) &&
  (match r.hi with
   | none => true
   | some h => decide (v ≤ h))

/-- Modelled from the spec: `nagiosplugin.Range.Check` — `true` means the
scalar alerts (outside the bounds, or inside them when inverted). -/
def checkRange (r : RangeSpec) (v : ℚ) : Bool :=
  if r.invert then insideRange r v else !(insideRange r v)

/-! ## Query model (elastic bool query and clauses) -/

/-- Range clause of an elastic `RangeQuery`: `Gt`/`Gte` set the lower
bound (`includeLower` false/true), `Lt`/`Lte` the upper bound,
`From`/`To` set bounds keeping the default inclusiveness (true). -/
structure RangeClause where
  lower : Option String
  upper : Option String
  includeLower : Bool
  includeUpper : Bool
deriving DecidableEq

/-- Queries produced by the program: leaf clauses and the boolean
compound (must / must_not / filter). -/
inductive EsQuery where
  | termQ (field value : String)
  | matchQ (field value : String)
  | prefixQ (field value : String)
  | existsQ (field : String)
  | regexpQ (field pattern : String)
  | rangeQ (field : String) (c : RangeClause)
  | queryStringQ (q : String)
  | boolQ (must mustNot filterCls : List EsQuery)

/-- Elastic `BoolQuery.Must`: append a clause to the scored conjunction. -/
def mustAdd : EsQuery → EsQuery → EsQuery
  | .boolQ m n f, c => .boolQ (m ++ [c]) n f
  | q, _ => q

/-- Elastic `BoolQuery.MustNot`. -/
def mustNotAdd : EsQuery → EsQuery → EsQuery
  | .boolQ m n f, c => .boolQ m (n ++ [c]) f
  | q, _ => q

/-- Elastic `BoolQuery.Filter`: attach a query as a non-scoring filter. -/
def filterAdd : EsQuery → EsQuery → EsQuery
  | .boolQ m n f, c => .boolQ m n (f ++ [c])
  | q, _ => q

/-- Must clauses of a bool query (empty for a leaf). -/
def mustList : EsQuery → List EsQuery
  | .boolQ m _ _ => m
  | _ => []

/-- Must-not clauses of a bool query. -/
def mustNotList : EsQuery → List EsQuery
  | .boolQ _ n _ => n
  | _ => []

/-- Filter clauses of a bool query. -/
def filterList : EsQuery → List EsQuery
  | .boolQ _ _ f => f
  | _ => []

/-! ## The searcher of variant B (`src/unnamed/part_000` lines 511-733) -/

/-- Named metric sub-aggregations attached to the date-range bucket. -/
inductive SubAgg where
  | minAgg (field : String)
  | maxAgg (field : String)
  | avgAgg (field : String)
  | sumAgg (field : String)
  | percentilesAgg (field : String) (ps : List ℚ)
  | percentileRanksAgg (field : String) (vs : List ℚ)
  | extendedStatsAgg (field : String)

/-- The `searcher` of variant B: scored query `qry`, unscored filter
conjunction `flt`, the stored sub-aggregation name and percentile key.
The client handle and the concrete date-range window (wall-clock times)
are elided; `subAggs` records the named sub-aggregations attached to the
date-range aggregation. -/
structure Searcher where
  aggName : String
  pctVal : String
  qry : EsQuery
  flt : EsQuery
  subAggs : List (String × SubAgg)

/-- Embedding of `newSearcher` (lines 522-544): both conjunctions start empty. -/
def initSearcher : Searcher :=
  ⟨"", "", .boolQ [] [] [], .boolQ [] [] [], []⟩

/-- Embedding of `AddQueryString` (lines 546-549): the free-text query goes into the
scored conjunction. -/
def AddQueryString (s : Searcher) (str : String) : Searcher :=
  { s with qry := mustAdd s.qry (.queryStringQ str) }

/-- Embedding of `AddExistsFilter` (lines 551-559). -/
def AddExistsFilter (s : Searcher) (field : String) (negative : Bool) : Searcher :=
  if negative then { s with flt := mustNotAdd s.flt (.existsQ field) }
  else { s with flt := mustAdd s.flt (.existsQ field) }

/-- Embedding of `AddRegexFilter` (lines 561-564): always positive. -/
def AddRegexFilter (s : Searcher) (field pattern : String) : Searcher :=
  { s with flt := mustAdd s.flt (.regexpQ field pattern) }

/-- Embedding of `AddMatchFilter` (lines 566-574). -/
def AddMatchFilter (s : Searcher) (field value : String) (negative : Bool) : Searcher :=
  if negative then { s with flt := mustNotAdd s.flt (.matchQ field value) }
  else { s with flt := mustAdd s.flt (.matchQ field value) }

/-- Embedding of `AddPrefixFilter` (lines 576-584). -/
def AddPrefixFilter (s : Searcher) (field value : String) (negative : Bool) : Searcher :=
  if negative then { s with flt := mustNotAdd s.flt (.prefixQ field value) }
  else { s with flt := mustAdd s.flt (.prefixQ field value) }

/-- Embedding of `AddTermFilter` (lines 586-593). -/
def AddTermFilter (s : Searcher) (field value : String) (negative : Bool) : Searcher :=
  if negative then { s with flt := mustNotAdd s.flt (.termQ field value) }
  else { s with flt := mustAdd s.flt (.termQ field value) }

/-- Range-expression switch of variant B `AddRangeFilter`
(lines 595-609): `>=`, `<=`, `>`, `<` tested in that order, then
`" TO "`. -/
def rangeClauseB (rng : String) : RangeClause :=
  if strStartsWith rng ">=" then ⟨some (strDrop rng 2), none, true, true⟩
  else if strStartsWith rng "<=" then ⟨none, some (strDrop rng 2), true, true⟩
  else if strStartsWith rng ">" then ⟨some (strDrop rng 1), none, false, true⟩
  else if strStartsWith rng "<" then ⟨none, some (strDrop rng 1), true, false⟩
  else if containsL " TO ".data rng.data then
    match splitOnL " TO ".data rng.data with
    | a :: b :: _ => ⟨some (String.mk a), some (String.mk b), true, true⟩
    | _ => ⟨none, none, true, true⟩
  else ⟨none, none, true, true⟩

/-- `AddRangeFilter` of variant B (lines 595-616): the clause is built on
the given field and appended to the filter conjunction. -/
def AddRangeFilter (s : Searcher) (field rng : String) (negative : Bool) : Searcher :=
  if negative then { s with flt := mustNotAdd s.flt (.rangeQ field (rangeClauseB rng)) }
  else { s with flt := mustAdd s.flt (.rangeQ field (rangeClauseB rng)) }

/-- Record a named sub-aggregation and remember its name
(`s.aggName = name + "_" + field`, lines 644-645). -/
def attachAgg (s : Searcher) (name field : String) (agg : SubAgg) : Searcher :=
  { s with
    aggName := name ++ "_" ++ field,
    subAggs := s.subAggs ++ [(name ++ "_" ++ field, agg)] }

/-- Embedding of `AddSubAggregation` (lines 618-648).  The Go variadic
interface parameter list with the checked cast `params[0].(float64)` is
embedded as `Option ℚ` whose failure value is 0
(the Go zero value when the type assertion fails).  An unrecognized kind
hits the `default` branch and returns the searcher unchanged. -/
def AddSubAggregation (s : Searcher) (field name : String) (params : Option ℚ) : Searcher :=
  if name = "min" then attachAgg s name field (.minAgg field)
  else if name = "max" then attachAgg s name field (.maxAgg field)
  else if name = "avg" then attachAgg s name field (.avgAgg field)
  else if name = "sum" then attachAgg s name field (.sumAgg field)
  else if name = "pct" then
    attachAgg { s with pctVal := formatFloat1 (params.getD 0) }
      name field (.percentilesAgg field [params.getD 0])
  else if name = "pctr" then
    attachAgg { s with pctVal := formatFloat1 (params.getD 0) }
      name field (.percentileRanksAgg field [params.getD 0])
  else if name = "stdev" ∨ name = "stdevmin" ∨ name = "stdevmax" ∨ name = "var" then
    attachAgg s name field (.extendedStatsAgg field)
  else s

/-- Embedding of `Search` (lines 729-733) sends `s.qry.Filter(s.flt)`: the scored
conjunction with the filter conjunction attached as a non-scoring
filter. -/
def searchQuery (s : Searcher) : EsQuery :=
  filterAdd s.qry s.flt

/-! ## Variant A (`src/unnamed/part_000` lines 1-433) -/

/-- Range-expression switch of variant A `AddRangeFilter`
(lines 112-126): the source tests `>` before `>=` and `<` before `<=`,
so the `>=` and `<=` cases are unreachable (kept here verbatim). -/
def rangeClauseA (rng : String) : RangeClause :=
  if strStartsWith rng ">" then ⟨some (strDrop rng 1), none, false, true⟩
  else if strStartsWith rng ">=" then ⟨some (strDrop rng 2), none, true, true⟩
  else if strStartsWith rng "<" then ⟨none, some (strDrop rng 1), true, false⟩
  else if strStartsWith rng "<=" then ⟨none, some (strDrop rng 2), true, true⟩
  else if containsL " TO ".data rng.data then
    match splitOnL " TO ".data rng.data with
    | a :: b :: _ => ⟨some (String.mk a), some (String.mk b), true, true⟩
    | _ => ⟨none, none, true, true⟩
  else ⟨none, none, true, true⟩

/-- The searcher of variant A has a single boolean query (no separate
filter conjunction); only its must / must_not lists matter here. -/
structure SearcherA where
  qryMust : List EsQuery
  qryMustNot : List EsQuery

/-- Embedding of variant A `AddRangeFilter` (lines 112-133): note the
clause is built on field name `"range_" + field`. -/
def AddRangeFilterA (s : SearcherA) (field rng : String) (negative : Bool) : SearcherA :=
  if negative then
    { s with qryMustNot := s.qryMustNot ++ [.rangeQ ("range_" ++ field) (rangeClauseA rng)] }
  else
    { s with qryMust := s.qryMust ++ [.rangeQ ("range_" ++ field) (rangeClauseA rng)] }

/-- Worker for the variant A token splitter: split on runs of `:` and
`=`, keeping only the non-empty groups (Go `strings.FieldsFunc`). -/
def fieldsFuncGo (l : List Char) : List (List Char) :=
  (l.foldr
    (fun c acc =>
      if c = ':' ∨ c = '=' then [] :: acc
      else
        match acc with
        | g :: rest => (c :: g) :: rest
        | [] => [[c]])
    [[]]).filter (fun g => g ≠ [])

/-- Embedding of variant A `fields` (lines 279-286): Go
`strings.FieldsFunc(in, r ∈ ":=")` — the naive splitter that breaks a
token at every `:` or `=`. -/
def fields (s : String) : List String :=
  (fieldsFuncGo s.data).map String.mk

/-- Range-flag section of variant A `filter` (lines 297-305), kept
verbatim: the negative-range branch parses `config.pRange` instead of
`config.nRange`.  Go slice indexing `f[0]` / `f[1]` on a too-short slice
is a run-time panic, modelled as `Except.error`. -/
def filterRangesA (pRange nRange : String) (s : SearcherA) : Except String SearcherA := do
  let s1 ←
    if pRange = "" then pure s
    else
      match fields pRange with
      | a :: b :: _ => pure (AddRangeFilterA s a b false)
      | _ => Except.error "index out of range"
  if nRange = "" then pure s1
  else
    match fields pRange with
    | a :: b :: _ => pure (AddRangeFilterA s1 a b true)
    | _ => Except.error "index out of range"

/-! ## The variant B token parser and filter application -/

/-- Core of `Fields` on a character list.  The Go regex
(`src/unnamed/part_000` line 777) is
anchored `[a-zA-Z0-9_.-]+` then one of `:` `=`, then `\s*` (greedy),
then the dot-star capture (any characters except newline).  Because the
separator characters are not in the field class, greedy matching with
backtracking coincides with maximal munch: take the longest field-class
prefix, require the next character to be a separator, skip following
whitespace, and capture up to the next newline. -/
def fieldsCore (cs : List Char) : List String :=
  match cs.drop (cs.takeWhile isFieldChar).length with
  | [] => []
  | c :: rest =>
    if cs.takeWhile isFieldChar ≠ [] ∧ (c = ':' ∨ c = '=') then
      [String.mk (cs.takeWhile isFieldChar),
       String.mk ((rest.dropWhile isSpaceGo).takeWhile (fun ch => ch != '\n'))]
    else []

/-- Embedding of `Fields` (lines 776-782): the regex-based token parser;
`FindStringSubmatch` returning nil is the empty list, otherwise the two
capture groups. -/
def Fields (s : String) : List String :=
  fieldsCore s.data

/-- Filter-related command-line configuration of variant B (the fields
of `args` consumed by `Filter`, lines 464-474). -/
structure FilterConfig where
  pExists : List String
  nExists : List String
  pTerm : List String
  nTerm : List String
  pMatch : List String
  nMatch : List String
  pPref : List String
  nPref : List String
  regexps : List String
  pRange : String
  nRange : String

/-- Apply one parsed (field, value) filter per token; Go `f[0]` / `f[1]`
on a slice shorter than two entries panics, modelled as
`Except.error`. -/
def applyParsed (apply : Searcher → String → String → Searcher) :
    List String → Searcher → Except String Searcher
  | [], s => .ok s
  | t :: ts, s =>
    match Fields t with
    | [a, b] => applyParsed apply ts (apply s a b)
    | _ => .error "index out of range"

/-- Embedding of `Filter` (lines 784-827): apply every configured filter
flag in source order.  Note the range branches of variant B parse each
flag's own token. -/
def Filter (cfg : FilterConfig) (s : Searcher) : Except String Searcher := do
  let s := cfg.pExists.foldl (fun a e => AddExistsFilter a e false) s
  let s := cfg.nExists.foldl (fun a e => AddExistsFilter a e true) s
  let s ← applyParsed (fun a f v => AddTermFilter a f v false) cfg.pTerm s
  let s ← applyParsed (fun a f v => AddTermFilter a f v true) cfg.nTerm s
  let s ← applyParsed (fun a f v => AddMatchFilter a f v false) cfg.pMatch s
  let s ← applyParsed (fun a f v => AddMatchFilter a f v true) cfg.nMatch s
  let s ← applyParsed (fun a f v => AddPrefixFilter a f v false) cfg.pPref s
  let s ← applyParsed (fun a f v => AddPrefixFilter a f v true) cfg.nPref s
  let s ← applyParsed (fun a f v => AddRegexFilter a f v) cfg.regexps s
  let s ←
    if cfg.pRange = "" then pure s
    else
      match Fields cfg.pRange with
      | [a, b] => pure (AddRangeFilter s a b false)
      | _ => Except.error "index out of range"
  let s ←
    if cfg.nRange = "" then pure s
    else
      match Fields cfg.nRange with
      | [a, b] => pure (AddRangeFilter s a b true)
      | _ => Except.error "index out of range"
  return s

/-- The query `main` would send (lines 975-980): `Query` then `Filter`,
and `Search` runs only if no panic occurred on the way (the
sub-aggregation step does not alter the query).  `none` means the search
is never executed. -/
def mainSearchQuery (cfg : FilterConfig) (queryStr : String) : Option EsQuery :=
  match Filter cfg (AddQueryString initSearcher queryStr) with
  | .ok s => some (searchQuery s)
  | .error _ => none

/-! ## Search result model and the extractor -/

/-- Statistic payload of one named sub-aggregation in the response, as
the program reads it: a plain value (min/max/avg/sum), a percentile map
keyed by formatted percentile string (pct/pctr), and the extended-stats
fields (stdev family). -/
structure AggPayload where
  value : ℚ
  values : List (String × ℚ)
  statMin : ℚ
  statMax : ℚ
  stdDeviation : ℚ
  variance : ℚ

/-- One date-range bucket with its named sub-aggregation results. -/
structure Bucket where
  aggs : List (String × AggPayload)

/-- Result of the named date-range aggregation. -/
structure DateRangeAggRes where
  buckets : List Bucket

/-- The part of an Elasticsearch search result the program reads. -/
structure SearchResult where
  totalHits : ℤ
  aggregations : List (String × DateRangeAggRes)

/-- Name lookup in an association list (the Go aggregation maps with
their `ok` flag). -/
def lookupBy {α : Type} : List (String × α) → String → Option α
  | [], _ => none
  | (k, a) :: rest, key => if k = key then some a else lookupBy rest key

/-- Go map read `stat.Values[key]`: the zero value 0 when the key is
absent (no `ok` flag is consulted in the source, lines 692 and 698). -/
def lookupValuesD : List (String × ℚ) → String → ℚ
  | [], _ => 0
  | (k, x) :: rest, key => if k = key then x else lookupValuesD rest key

/-- The two error types of the program (lines 737-754): `Error` wrappers
with distinct names.  `NoSearchResultError` is the empty-result kind,
`NoAggrValuesError` the missing-metric kind. -/
inductive EsError where
  | NoSearchResultError (msg : String)
  | NoAggrValuesError (msg : String)
deriving DecidableEq

/-- Embedding of the two `Error()` methods (lines 745-747 and
752-754). -/
def errorString : EsError → String
  | .NoSearchResultError m => "No data in search result - " ++ m
  | .NoAggrValuesError m =>
    "Aggregation result value missing in response - " ++ m ++ " (see --debug)"

/-- Embedding of `Result` (lines 650-727).  `aggKind` is the global
`*config.agg`; `pctVal` and `aggName` are the searcher fields.  The
returned pair mirrors the Go `(float64, error)` pair. -/
def Result (aggKind pctVal aggName : String) (res : SearchResult) :
    ℚ × Option EsError :=
  if res.totalHits = 0 then (0, some (.NoSearchResultError "0 hits"))
  else
    match lookupBy res.aggregations "aggr" with
    | none => (0, some (.NoSearchResultError "no aggregations"))
    | some aggr =>
      match aggr.buckets with
      | [] => (0, some (.NoSearchResultError "0 aggregation buckets"))
      | bucket :: _ =>
        if aggKind = "min" then
          match lookupBy bucket.aggs aggName with
          | none => (0, some (.NoAggrValuesError aggKind))
          | some stat => (stat.value, none)
        else if aggKind = "max" then
          match lookupBy bucket.aggs aggName with
          | none => (0, some (.NoAggrValuesError aggKind))
          | some stat => (stat.value, none)
        else if aggKind = "avg" then
          match lookupBy bucket.aggs aggName with
          | none => (0, some (.NoAggrValuesError aggKind))
          | some stat => (stat.value, none)
        else if aggKind = "sum" then
          match lookupBy bucket.aggs aggName with
          | none => (0, some (.NoAggrValuesError aggKind))
          | some stat => (stat.value, none)
        else if aggKind = "pct" then
          match lookupBy bucket.aggs aggName with
          | none => (0, some (.NoAggrValuesError aggKind))
          | some stat => (lookupValuesD stat.values pctVal, none)
        else if aggKind = "pctr" then
          match lookupBy bucket.aggs aggName with
          | none => (0, some (.NoAggrValuesError aggKind))
          | some stat => (lookupValuesD stat.values pctVal, none)
        else if aggKind = "stdev" then
          match lookupBy bucket.aggs aggName with
          | none => (0, some (.NoAggrValuesError aggKind))
          | some stat => (stat.stdDeviation, none)
        else if aggKind = "stdevmin" then
          match lookupBy bucket.aggs aggName with
          | none => (0, some (.NoAggrValuesError aggKind))
          | some stat => (stat.statMin, none)
        else if aggKind = "stdevmax" then
          match lookupBy bucket.aggs aggName with
          | none => (0, some (.NoAggrValuesError aggKind))
          | some stat => (stat.statMax, none)
        else if aggKind = "var" then
          match lookupBy bucket.aggs aggName with
          | none => (0, some (.NoAggrValuesError aggKind))
          | some stat => (stat.variance, none)
        else (0, some (.NoAggrValuesError aggKind))

/-- The statistic each recognized kind projects out of a present
payload (the per-case reads of `Result`). -/
def extractStat (aggKind pctVal : String) (stat : AggPayload) : ℚ :=
  if aggKind = "pct" ∨ aggKind = "pctr" then lookupValuesD stat.values pctVal
  else if aggKind = "stdev" then stat.stdDeviation
  else if aggKind = "stdevmin" then stat.statMin
  else if aggKind = "stdevmax" then stat.statMax
  else if aggKind = "var" then stat.variance
  else stat.value

/-- The closed set of aggregation kinds recognized by
`AddSubAggregation` and `Result`. -/
def aggKinds : List String :=
  ["min", "max", "avg", "sum", "pct", "pctr",
   "stdev", "stdevmin", "stdevmax", "var"]

/-! ## The tail of variant B `main` (lines 989-1013) -/

/-- Severity chosen from the `--null-code` switch when extraction failed
(lines 993-1002). -/
def nullSeverity (nullCode : ℤ) : Severity :=
  if nullCode = 0 then .ok
  else if nullCode = 1 then .warning
  else if nullCode = 2 then .critical
  else .unknown

/-- Result-handling tail of variant B `main` (lines 989-1013): the
performance datum always carries the extracted value; on an extraction
error the severity comes from `--null-code` and the message embeds the
error text; otherwise the critical range is checked first, then the
warning range.  Returns (severity, message, performance value). -/
def handleResult (critR warnR : RangeSpec) (nullCode : ℤ)
    (desc unit warnT critT : String) (vr : ℚ × Option EsError) :
    Severity × String × ℚ :=
  let value := vr.1
  match vr.2 with
  | some e =>
    (nullSeverity nullCode,
     desc ++ " " ++ formatFloat6 value ++ unit ++ " (" ++ errorString e ++ ")",
     value)
  | none =>
    if checkRange critR value then
      (.critical,
       desc ++ " " ++ formatFloat6 value ++ unit ++ " > " ++ (critT ++ unit),
       value)
    else if checkRange warnR value then
      (.warning,
       desc ++ " " ++ formatFloat6 value ++ unit ++ " > " ++ (warnT ++ unit),
       value)
    else (.ok, desc ++ " " ++ formatFloat6 value ++ unit, value)

/-- Substring containment on strings, used to state that a message
carries an error detail. -/
def strContainsSub (s pat : String) : Prop :=
  ∃ pre post : List Char, s.data = pre ++ pat.data ++ post

/-! ## The tail of `src/cmd/check_es_aggregation/main.go` (lines 95-123) -/

/-- Check results added by the cmd variant once a scalar is extracted:
an OK result is added first (line 97); then the warning range is checked
first and the function returns on a match (lines 115-118), so the
critical check (lines 119-122) runs only when the warning range did not
match. -/
def cmdResults (warnMatch critMatch : Bool) : List Severity :=
  [.ok] ++
    (if warnMatch then [.warning]
     else if critMatch then [.critical]
     else [])

/-- Final severity of the cmd variant (worst added result, per the
`nagiosplugin` finish rule). -/
def cmdFinalSeverity (warnMatch critMatch : Bool) : Severity :=
  worstSeverity (cmdResults warnMatch critMatch)

/-! ## Synthetic collaborator result for the percentile round trip -/

/-- Modelled from the spec: the external search backend (spec §6) indexes
percentile values of the result tree by the formatted percentile string
that was requested.  This builds the minimal such result: one hit, the
named date-range aggregation with one bucket, the named percentiles
payload storing `v` under the formatted key of `p`. -/
def mkPercentilesResult (aggName : String) (p v : ℚ) : SearchResult :=
  ⟨1, [("aggr", ⟨[⟨[(aggName, ⟨0, [(formatFloat1 p, v)], 0, 0, 0, 0⟩)]⟩]⟩)]⟩

/-- The malformed-token configuration used to exhibit the parse panic:
a single positive term filter whose token has no separator. -/
def cfgBad : FilterConfig :=
  ⟨[], [], ["badtoken"], [], [], [], [], [], [], "", ""⟩

/-- Numeric meaning of a range clause: every bound that parses as a
decimal constrains the value according to its inclusiveness flag (the
semantics Elasticsearch gives the generated range query on a numeric
field). -/
def rangeHolds (c : RangeClause) (x : ℚ) : Prop :=
  (match c.lower with
   | none => True
   | some s =>
     match parseQL s.data with
     | none => True
     | some q => if c.includeLower then q ≤ x else q < x) ∧
  (match c.upper with
   | none => True
   | some s =>
     match parseQL s.data with
     | none => True
     | some q => if c.includeUpper then x ≤ q else x < q)

/-! ## Helper lemmas -/

theorem takeWhile_append_of_all {p : Char → Bool} (l₁ l₂ : List Char)
    (h : l₁.all p = true) :
    (l₁ ++ l₂).takeWhile p = l₁ ++ l₂.takeWhile p := by
  induction l₁ with
  | nil => rfl
  | cons c t ih =>
    simp only [List.all_cons, Bool.and_eq_true] at h
    simp [List.takeWhile_cons, h.1, ih h.2]

theorem takeWhile_eq_self_of_all {p : Char → Bool} (l : List Char)
    (h : l.all p = true) : l.takeWhile p = l := by
  induction l with
  | nil => rfl
  | cons c t ih =>
    simp only [List.all_cons, Bool.and_eq_true] at h
    simp [List.takeWhile_cons, h.1, ih h.2]

theorem all_dropWhile_of_all {p q : Char → Bool} (l : List Char)
    (h : l.all p = true) : (l.dropWhile q).all p = true := by
  induction l with
  | nil => rfl
  | cons c t ih =>
    simp only [List.all_cons, Bool.and_eq_true] at h
    by_cases hq : q c = true
    · simpa [List.dropWhile_cons, hq] using ih h.2
    · simp only [List.dropWhile_cons, hq]
      simp [h.1, h.2]

/-! ## Claim theorems -/

/-- C1: in the tail of variant B `main` the critical range is checked
first, so the scalar 35 against warning range "15" (0..15) and critical
range "30" (0..30) — which alerts on both — yields CRITICAL; but in
`src/cmd/check_es_aggregation/main.go` lines 115-122 the warning range is
checked first with an early return, so the same scalar yields WARNING,
contradicting the claim that the severity of a scalar matching both
ranges is CRITICAL, never WARNING. -/
theorem c1_critical_precedence_vs_cmd :
    parseRange "15" = some ⟨false, some 0, some 15⟩ ∧
    parseRange "30" = some ⟨false, some 0, some 30⟩ ∧
    checkRange ⟨false, some 0, some 15⟩ 35 = true ∧
    checkRange ⟨false, some 0, some 30⟩ 35 = true ∧
    (handleResult ⟨false, some 0, some 30⟩ ⟨false, some 0, some 15⟩ 2
      "dur" "" "15" "30" (35, none)).1 = Severity.critical ∧
    cmdFinalSeverity (checkRange ⟨false, some 0, some 15⟩ 35)
      (checkRange ⟨false, some 0, some 30⟩ 35) = Severity.warning ∧
    Severity.warning ≠ Severity.critical := by
  decide

/-- C5: on a filter token that does not match the grammar, `Fields`
returns the empty pair, but the caller `Filter` indexes into it and the
run aborts with a run-time panic (index out of range) rather than a
clean configuration error; the search itself is never executed. -/
theorem c5_bad_token_panics_before_search :
    Fields "badtoken" = [] ∧
    Filter cfgBad initSearcher = Except.error "index out of range" ∧
    mainSearchQuery cfgBad "*" = none :=
  ⟨by decide, rfl, rfl⟩

/-- C6: variant B recognizes `>=`, `<=`, `>`, `<` in that order and a
`" TO "` literal as an inclusive pair, so `"400 TO 599"` on field `code`
appends a clause equivalent to `code >= 400 AND code <= 599`; variant A
however tests `>` before `>=`, so `">=400"` there becomes an exclusive
`Gt` bound with the leftover string `"=400"`. -/
theorem c6_range_expression_parsing :
    (∀ s : Searcher, (AddRangeFilter s "code" "400 TO 599" false).flt =
      mustAdd s.flt (.rangeQ "code" ⟨some "400", some "599", true, true⟩)) ∧
    rangeClauseB ">=400" = ⟨some "400", none, true, true⟩ ∧
    rangeClauseB "<=599" = ⟨none, some "599", true, true⟩ ∧
    rangeClauseB ">400" = ⟨some "400", none, false, true⟩ ∧
    rangeClauseB "<400" = ⟨none, some "400", true, false⟩ ∧
    (∀ x : ℚ, rangeHolds ⟨some "400", some "599", true, true⟩ x ↔
      400 ≤ x ∧ x ≤ 599) ∧
    rangeClauseA ">=400" = ⟨some "=400", none, false, true⟩ := by
  have h4 : parseQL "400".data = some 400 := by decide
  have h5 : parseQL "599".data = some 599 := by decide
  refine ⟨fun s => rfl, by decide, by decide, by decide, by decide,
    fun x => ?_, by decide⟩
  simp [rangeHolds, h4, h5]

/-- C9: variant A (lines 297-305) applies the negative range filter to
the positive flag's token: with `--range "a:>1" --not-range "b:<2"` both
the positive and the negated clause are built from `"a:>1"` (field
`range_a`, bound `>1`), while variant B (lines 819-826) parses each
flag's own token and produces the positive clause from `a` and the
negated clause from `b`. -/
theorem c9_each_range_flag_own_value :
    fields "a:>1" = ["a", ">1"] ∧
    fields "b:<2" = ["b", "<2"] ∧
    filterRangesA "a:>1" "b:<2" ⟨[], []⟩ =
      .ok ⟨[.rangeQ "range_a" ⟨some "1", none, false, true⟩],
           [.rangeQ "range_a" ⟨some "1", none, false, true⟩]⟩ ∧
    Filter ⟨[], [], [], [], [], [], [], [], [], "a:>1", "b:<2"⟩ initSearcher =
      .ok ⟨"", "", .boolQ [] [] [],
           .boolQ [.rangeQ "a" ⟨some "1", none, false, true⟩]
                  [.rangeQ "b" ⟨none, some "2", true, false⟩] [], []⟩ :=
  ⟨by decide, by decide, rfl, rfl⟩

/-- C4 counterexample: on the token `"host: local:host"` the remainder
of the string after the first `:` is `" local:host"`, but `Fields`
yields `"local:host"` — the regex `\s*` after the separator strips the
value's leading whitespace, so the value is not the verbatim remainder
and the trimming is on the value side, not the field side. -/
theorem c4_counterexample_value_not_verbatim :
    Fields "host: local:host" = ["host", "local:host"] ∧
    Fields "host: local:host" ≠ ["host", " local:host"] := by
  decide

/-- C4 (amended): for every token `field ++ sep ++ rest` whose field part
is a non-empty string over `[A-Za-z0-9_.-]` and whose separator is the
first `:` or `=`, `Fields` yields exactly the field, and as the value
the remainder after the separator with its leading whitespace removed —
never truncated at a later `:` or `=`; the field side is not trimmed at
all (newline-free tokens; the Go dot does not match a newline). -/
theorem c4_first_separator_value_trimmed_left (field rest : String) (c : Char)
    (h1 : field.data ≠ []) (h2 : field.data.all isFieldChar = true)
    (h3 : c = ':' ∨ c = '=') (h4 : rest.data.all (fun ch => ch != '\n') = true) :
    Fields (field ++ String.mk [c] ++ rest) =
      [field, String.mk (rest.data.dropWhile isSpaceGo)] := by
  have hc : isFieldChar c = false := by rcases h3 with rfl | rfl <;> decide
  have hdata : (field ++ String.mk [c] ++ rest).data = field.data ++ c :: rest.data := by
    simp [String.data_append]
  have htake : (field.data ++ c :: rest.data).takeWhile isFieldChar = field.data := by
    rw [takeWhile_append_of_all _ _ h2]
    simp [List.takeWhile_cons, hc]
  have hval : (rest.data.dropWhile isSpaceGo).takeWhile (fun ch => ch != '\n') =
      rest.data.dropWhile isSpaceGo :=
    takeWhile_eq_self_of_all _ (all_dropWhile_of_all _ h4)
  have hmk : String.mk field.data = field := rfl
  unfold Fields fieldsCore
  rw [hdata, htake, List.drop_left]
  simp [h1, h3, hval, hmk]

/-- C4 witness: a concrete application of the amended statement, on a
token whose value holds a further `=` and is produced untruncated. -/
theorem c4_witness_token_second_separator :
    Fields ("svc" ++ String.mk ['='] ++ "a=b") =
      ["svc", String.mk ("a=b".data.dropWhile isSpaceGo)] :=
  c4_first_separator_value_trimmed_left "svc" "a=b" '='
    (by decide) (by decide) (Or.inr rfl) (by decide)

/-- C3: requesting `pct` (or `pctr`) with percentile argument `p` stores
`p` formatted to one decimal place as the searcher's lookup key;
formatting 95 gives `"95.0"`; and extraction reads the percentile value
under exactly that key, so on a result tree storing the value under the
formatted key the round trip returns it with no error. -/
theorem c3_percentile_roundtrip (s : Searcher) (field aggName : String) (p v : ℚ) :
    (AddSubAggregation s field "pct" (some p)).pctVal = formatFloat1 p ∧
    (AddSubAggregation s field "pctr" (some p)).pctVal = formatFloat1 p ∧
    formatFloat1 95 = "95.0" ∧
    Result "pct" ((AddSubAggregation s field "pct" (some p)).pctVal) aggName
      (mkPercentilesResult aggName p v) = (v, none) ∧
    Result "pctr" ((AddSubAggregation s field "pctr" (some p)).pctVal) aggName
      (mkPercentilesResult aggName p v) = (v, none) := by
  have hpct : (AddSubAggregation s field "pct" (some p)).pctVal = formatFloat1 p := by
    simp [AddSubAggregation, attachAgg]
  have hpctr : (AddSubAggregation s field "pctr" (some p)).pctVal = formatFloat1 p := by
    simp [AddSubAggregation, attachAgg]
  refine ⟨hpct, hpctr, by decide, ?_, ?_⟩
  · rw [hpct]
    simp [Result, mkPercentilesResult, lookupBy, lookupValuesD]
  · rw [hpctr]
    simp [Result, mkPercentilesResult, lookupBy, lookupValuesD]

/-- C2: for every recognized aggregation kind, `Result` is the linear
state machine of the claim — zero total hits, a missing named date-range
aggregation, or an empty bucket list each fail with the empty-result
error kind; a missing named sub-metric fails with the missing-metric
kind; otherwise the scalar of the requested statistic is returned with
no error; and the two failure kinds are distinct error constructors. -/
theorem c2_result_state_machine (aggKind pctVal aggName : String)
    (hk : aggKind ∈ aggKinds) (res : SearchResult) :
    (res.totalHits = 0 →
      Result aggKind pctVal aggName res =
        (0, some (.NoSearchResultError "0 hits"))) ∧
    (res.totalHits ≠ 0 → lookupBy res.aggregations "aggr" = none →
      Result aggKind pctVal aggName res =
        (0, some (.NoSearchResultError "no aggregations"))) ∧
    (∀ dr, res.totalHits ≠ 0 → lookupBy res.aggregations "aggr" = some dr →
      dr.buckets = [] →
      Result aggKind pctVal aggName res =
        (0, some (.NoSearchResultError "0 aggregation buckets"))) ∧
    (∀ dr b tl, res.totalHits ≠ 0 →
      lookupBy res.aggregations "aggr" = some dr → dr.buckets = b :: tl →
      lookupBy b.aggs aggName = none →
      Result aggKind pctVal aggName res =
        (0, some (.NoAggrValuesError aggKind))) ∧
    (∀ dr b tl stat, res.totalHits ≠ 0 →
      lookupBy res.aggregations "aggr" = some dr → dr.buckets = b :: tl →
      lookupBy b.aggs aggName = some stat →
      Result aggKind pctVal aggName res =
        (extractStat aggKind pctVal stat, none)) ∧
    (∀ m1 m2, EsError.NoSearchResultError m1 ≠ EsError.NoAggrValuesError m2) := by
  simp only [aggKinds, List.mem_cons, List.mem_nil_iff, or_false] at hk
  refine ⟨fun h0 => by simp [Result, h0],
    fun h0 h1 => by simp [Result, h0, h1],
    fun dr h0 h1 h2 => by simp [Result, h0, h1, h2],
    fun dr b tl h0 h1 h2 h3 => ?_,
    fun dr b tl stat h0 h1 h2 h3 => ?_,
    fun m1 m2 h => by cases h⟩
  · rcases hk with rfl | rfl | rfl | rfl | rfl | rfl | rfl | rfl | rfl | rfl <;>
      simp [Result, h0, h1, h2, h3]
  · rcases hk with rfl | rfl | rfl | rfl | rfl | rfl | rfl | rfl | rfl | rfl <;>
      simp [Result, extractStat, h0, h1, h2, h3]

/-- C2 witness: the state machine applied to a concrete empty result. -/
theorem c2_witness_zero_hits :
    Result "max" "" "max_dur" ⟨0, []⟩ =
      (0, some (.NoSearchResultError "0 hits")) :=
  (c2_result_state_machine "max" "" "max_dur" (by decide) ⟨0, []⟩).1 rfl

/-- C10: for a kind outside the recognized set, `AddSubAggregation`
returns the searcher unchanged (no sub-aggregation attached, the stored
aggregation name untouched), and `Result` — on a response that passes
the emptiness checks — returns 0 with a missing-metric error naming the
kind. -/
theorem c10_unrecognized_kind (s : Searcher) (field aggKind : String)
    (params : Option ℚ) (pctVal aggName : String) (res : SearchResult)
    (dr : DateRangeAggRes) (b : Bucket) (tl : List Bucket)
    (hk : aggKind ∉ aggKinds) (h0 : res.totalHits ≠ 0)
    (h1 : lookupBy res.aggregations "aggr" = some dr)
    (h2 : dr.buckets = b :: tl) :
    AddSubAggregation s field aggKind params = s ∧
    Result aggKind pctVal aggName res = (0, some (.NoAggrValuesError aggKind)) := by
  simp only [aggKinds, List.mem_cons, List.mem_nil_iff, or_false, not_or] at hk
  obtain ⟨n1, n2, n3, n4, n5, n6, n7, n8, n9, n10⟩ := hk
  constructor
  · simp [AddSubAggregation, n1, n2, n3, n4, n5, n6, n7, n8, n9, n10]
  · simp [Result, h0, h1, h2, n1, n2, n3, n4, n5, n6, n7, n8, n9, n10]

/-- C10 witness: the unrecognized kind `"median"` on a one-hit result. -/
theorem c10_witness_median :
    AddSubAggregation initSearcher "dur" "median" none = initSearcher ∧
    Result "median" "" "nm" ⟨1, [("aggr", ⟨[⟨[]⟩]⟩)]⟩ =
      (0, some (.NoAggrValuesError "median")) :=
  c10_unrecognized_kind initSearcher "dur" "median" none "" "nm"
    ⟨1, [("aggr", ⟨[⟨[]⟩]⟩)]⟩ ⟨[⟨[]⟩]⟩ ⟨[]⟩ []
    (by decide) (by decide) rfl rfl

/-- C7: on a response with zero total hits, extraction yields the value
0 with the `"0 hits"` empty-result error; the tail of `main` then emits
the performance value 0, picks the severity from the configured fallback
code (0 is OK, 1 is WARNING, 2 is CRITICAL, anything else is UNKNOWN),
and the outcome message contains `"0 hits"`. -/
theorem c7_empty_result_fallback (critR warnR : RangeSpec) (nullCode : ℤ)
    (desc unit warnT critT aggKind pctVal aggName : String)
    (res : SearchResult) (h : res.totalHits = 0) :
    Result aggKind pctVal aggName res =
      (0, some (.NoSearchResultError "0 hits")) ∧
    (handleResult critR warnR nullCode desc unit warnT critT
        (Result aggKind pctVal aggName res)).2.2 = 0 ∧
    (nullCode = 0 →
      (handleResult critR warnR nullCode desc unit warnT critT
        (Result aggKind pctVal aggName res)).1 = Severity.ok) ∧
    (nullCode = 1 →
      (handleResult critR warnR nullCode desc unit warnT critT
        (Result aggKind pctVal aggName res)).1 = Severity.warning) ∧
    (nullCode = 2 →
      (handleResult critR warnR nullCode desc unit warnT critT
        (Result aggKind pctVal aggName res)).1 = Severity.critical) ∧
    (nullCode ≠ 0 → nullCode ≠ 1 → nullCode ≠ 2 →
      (handleResult critR warnR nullCode desc unit warnT critT
        (Result aggKind pctVal aggName res)).1 = Severity.unknown) ∧
    strContainsSub
      (handleResult critR warnR nullCode desc unit warnT critT
        (Result aggKind pctVal aggName res)).2.1 "0 hits" := by
  have hres : Result aggKind pctVal aggName res =
      (0, some (.NoSearchResultError "0 hits")) := by
    simp [Result, h]
  rw [hres]
  refine ⟨rfl, by simp [handleResult],
    fun h0 => by simp [handleResult, nullSeverity, h0],
    fun h0 => by simp [handleResult, nullSeverity, h0],
    fun h0 => by simp [handleResult, nullSeverity, h0],
    fun ha hb hc => by simp [handleResult, nullSeverity, ha, hb, hc], ?_⟩
  refine ⟨(desc ++ " " ++ formatFloat6 0 ++ unit ++ " (" ++
    "No data in search result - ").data, ")".data, ?_⟩
  simp [handleResult, errorString, String.data_append]

/-- C7 witness: fallback code 2 on a concrete zero-hit response gives
CRITICAL, performance value 0, and a message containing "0 hits". -/
theorem c7_witness_nullcode_two :
    Result "max" "" "nm" ⟨0, []⟩ =
      (0, some (.NoSearchResultError "0 hits")) ∧
    (handleResult ⟨false, some 0, some 30⟩ ⟨false, some 0, some 15⟩ 2
        "d" "" "15" "30" (Result "max" "" "nm" ⟨0, []⟩)).2.2 = 0 ∧
    (handleResult ⟨false, some 0, some 30⟩ ⟨false, some 0, some 15⟩ 2
        "d" "" "15" "30" (Result "max" "" "nm" ⟨0, []⟩)).1 = Severity.critical ∧
    strContainsSub
      (handleResult ⟨false, some 0, some 30⟩ ⟨false, some 0, some 15⟩ 2
        "d" "" "15" "30" (Result "max" "" "nm" ⟨0, []⟩)).2.1 "0 hits" := by
  have H := c7_empty_result_fallback ⟨false, some 0, some 30⟩
    ⟨false, some 0, some 15⟩ 2 "d" "" "15" "30" "max" "" "nm" ⟨0, []⟩ rfl
  exact ⟨H.1, H.2.1, H.2.2.2.2.1 rfl, H.2.2.2.2.2.2⟩

/-- C8: every filter-family method leaves the scored conjunction `qry`
untouched and appends exactly its clause to the unscored filter
conjunction `flt` (must or must_not according to the negate flag); the
free-text query method leaves `flt` untouched and appends to the scored
conjunction; and the outgoing combined query is the scored conjunction
with `flt` attached as a non-scoring filter clause. -/
theorem c8_query_filter_separation (s : Searcher) (an pv : String)
    (qm qn qf : List EsQuery) (flt0 : EsQuery) (subs : List (String × SubAgg))
    (fld val pat rng qs : String) :
    (AddExistsFilter s fld false).qry = s.qry ∧
    (AddExistsFilter s fld false).flt = mustAdd s.flt (.existsQ fld) ∧
    (AddExistsFilter s fld true).qry = s.qry ∧
    (AddExistsFilter s fld true).flt = mustNotAdd s.flt (.existsQ fld) ∧
    (AddTermFilter s fld val false).qry = s.qry ∧
    (AddTermFilter s fld val false).flt = mustAdd s.flt (.termQ fld val) ∧
    (AddTermFilter s fld val true).qry = s.qry ∧
    (AddTermFilter s fld val true).flt = mustNotAdd s.flt (.termQ fld val) ∧
    (AddMatchFilter s fld val false).qry = s.qry ∧
    (AddMatchFilter s fld val false).flt = mustAdd s.flt (.matchQ fld val) ∧
    (AddMatchFilter s fld val true).qry = s.qry ∧
    (AddMatchFilter s fld val true).flt = mustNotAdd s.flt (.matchQ fld val) ∧
    (AddPrefixFilter s fld val false).qry = s.qry ∧
    (AddPrefixFilter s fld val false).flt = mustAdd s.flt (.prefixQ fld val) ∧
    (AddPrefixFilter s fld val true).qry = s.qry ∧
    (AddPrefixFilter s fld val true).flt = mustNotAdd s.flt (.prefixQ fld val) ∧
    (AddRegexFilter s fld pat).qry = s.qry ∧
    (AddRegexFilter s fld pat).flt = mustAdd s.flt (.regexpQ fld pat) ∧
    (AddRangeFilter s fld rng false).qry = s.qry ∧
    (AddRangeFilter s fld rng false).flt =
      mustAdd s.flt (.rangeQ fld (rangeClauseB rng)) ∧
    (AddRangeFilter s fld rng true).qry = s.qry ∧
    (AddRangeFilter s fld rng true).flt =
      mustNotAdd s.flt (.rangeQ fld (rangeClauseB rng)) ∧
    (AddQueryString s qs).flt = s.flt ∧
    (AddQueryString s qs).qry = mustAdd s.qry (.queryStringQ qs) ∧
    searchQuery ⟨an, pv, .boolQ qm qn qf, flt0, subs⟩ =
      .boolQ qm qn (qf ++ [flt0]) := by
  and_intros <;> rfl

end ESAgg
